import Mathlib

/-!
Shallow embedding of the HTTP proxy server (`src/proxyServer.py`) and of the
backend web server stub (`src/webServer.py`).

Python strings are modelled as `String` (manipulated through their underlying
`List Char`), byte strings as `List Nat`.  The proxy's in-memory cache
dictionary `self.cache` is modelled as an insertion-ordered association list,
which is exactly the observable behaviour of a Python `dict` (keys are unique,
iteration order is insertion order, assigning to an existing key updates the
value in place without moving the key).  The cache directory on disk is
modelled as an association list from file names to file contents; the constant
directory prefix added by `os.path.join(CACHE_DIR, ...)` is a bijection on
names and is dropped.  Sockets are abstracted away: the client request is the
decoded string argument, the upstream web server is a function from the
forwarded URI to `Option` of the response bytes, where `none` plays the role
of `ConnectionRefusedError`.  An exception escaping the `try`/`finally` block
(there is no `except` clause around the request parsing) is recorded in a
`crashed` flag: the connection is closed with nothing sent.

String helpers (`splitlines`, whitespace `split`, `startswith`, slicing,
`replace`, `strip`, `int(...)`) are translated from the corresponding Python
primitives, restricted to the ASCII range, which covers this protocol.
-/

namespace ProxySrc

/-- ASCII whitespace recognised by Python's no-argument `str.split()` and by
`str.strip()` inside `int(...)`. -/
def pyIsSpace (c : Char) : Bool :=
  c = ' ' || c = '\t' || c = '\n' || c = '\r' || c = '\x0b' || c = '\x0c'

/-- ASCII line boundaries recognised by Python's `str.splitlines()`
(besides the two-character boundary `"\r\n"`, handled separately). -/
def pyIsLineBreak (c : Char) : Bool :=
  c = '\n' || c = '\r' || c = '\x0b' || c = '\x0c' ||
  c = '\x1c' || c = '\x1d' || c = '\x1e'

/-- Worker for `pySplitlines`; `acc` holds the current line reversed. -/
def splitlinesAux : List Char → List Char → List String
  | [], acc => if acc.isEmpty then [] else [String.mk acc.reverse]
  | '\r' :: '\n' :: rest, acc => String.mk acc.reverse :: splitlinesAux rest []
  | c :: rest, acc =>
      if pyIsLineBreak c then String.mk acc.reverse :: splitlinesAux rest []
      else splitlinesAux rest (c :: acc)

/-- Python `s.splitlines()`: split at line boundaries, no trailing empty line,
`"".splitlines() == []`. -/
def pySplitlines (s : String) : List String :=
  splitlinesAux s.data []

/-- Worker for `pySplitWs`; `acc` holds the current word reversed. -/
def splitWsAux : List Char → List Char → List String
  | [], acc => if acc.isEmpty then [] else [String.mk acc.reverse]
  | c :: rest, acc =>
      if pyIsSpace c then
        if acc.isEmpty then splitWsAux rest []
        else String.mk acc.reverse :: splitWsAux rest []
      else splitWsAux rest (c :: acc)

/-- Python `s.split()` with no argument: split on runs of whitespace,
discarding empty words. -/
def pySplitWs (s : String) : List String :=
  splitWsAux s.data []

/-- `p` is a prefix of the character list `l` (Python `startswith` core). -/
def isPrefixChars : List Char → List Char → Bool
  | [], _ => true
  | _ :: _, [] => false
  | p :: ps, c :: cs => p = c && isPrefixChars ps cs

/-- Python `s.startswith(p)`. -/
def pyStartsWith (s p : String) : Bool :=
  isPrefixChars p.data s.data

/-- Index of the first occurrence of `t`, if any (worker for `pyFind`). -/
def findCharIdx : List Char → Char → Option Nat
  | [], _ => none
  | c :: rest, t => if c = t then some 0 else (findCharIdx rest t).map (· + 1)

/-- Python `s.find(t)` for a one-character needle: first index, or `-1`. -/
def pyFind (s : String) (t : Char) : Int :=
  match findCharIdx s.data t with
  | some i => (i : Int)
  | none => -1

/-- Python slice `s[i:]`, with the negative-index convention. -/
def pySliceFrom (s : String) (i : Int) : String :=
  if 0 ≤ i then String.mk (s.data.drop i.toNat)
  else String.mk (s.data.drop (s.data.length - min s.data.length (-i).toNat))

/-- Python slice `s[n:]` for a non-negative literal `n`. -/
def pyDrop (s : String) (n : Nat) : String :=
  String.mk (s.data.drop n)

/-- Python `s.lstrip(t)` for a one-character argument. -/
def pyLStripChar : List Char → Char → List Char
  | [], _ => []
  | c :: rest, t => if c = t then pyLStripChar rest t else c :: rest

/-- Strip leading whitespace (worker for `pyStrip`). -/
def pyStripLeft : List Char → List Char
  | [] => []
  | c :: rest => if pyIsSpace c then pyStripLeft rest else c :: rest

/-- Python `s.strip()` with no argument: drop whitespace at both ends. -/
def pyStrip (l : List Char) : List Char :=
  (pyStripLeft (pyStripLeft l).reverse).reverse

/-- Digit-sequence part of Python's `int(...)` grammar:
`digit (["_"] digit)*`.  `afterUnd` is true when the previous character was an
underscore (or at the very start, where a digit is required). -/
def digitsAux : List Char → Bool → Nat → Option Nat
  | [], afterUnd, acc => if afterUnd then none else some acc
  | c :: rest, afterUnd, acc =>
      if c.isDigit then digitsAux rest false (acc * 10 + (c.toNat - 48))
      else if c = '_' && !afterUnd then digitsAux rest true acc
      else none

/-- Parse a non-empty digit sequence with single interior underscores. -/
def parseDigits (l : List Char) : Option Nat :=
  digitsAux l true 0

/-- Python `int(s)` on an ASCII string: optional surrounding whitespace,
optional single sign, then digits with optional single interior
underscores; anything else raises `ValueError` (here: `none`). -/
def pythonInt (s : String) : Option Int :=
  match pyStrip s.data with
  | [] => none
  | '+' :: rest => Option.map Int.ofNat (parseDigits rest)
  | '-' :: rest => Option.map (fun m => -(Int.ofNat m)) (parseDigits rest)
  | l => Option.map Int.ofNat (parseDigits l)

/-- Lookup in an association list: Python `k in d` / `d[k]` combined. -/
def dictLookup {β : Type} : List (String × β) → String → Option β
  | [], _ => none
  | (k, v) :: rest, key => if k = key then some v else dictLookup rest key

/-- Python `d[k] = v` on a `dict`: update the value in place if the key is
present (its position in insertion order is unchanged), else append. -/
def dictInsert {β : Type} : List (String × β) → String → β → List (String × β)
  | [], k, v => [(k, v)]
  | (k', v') :: rest, k, v =>
      if k' = k then (k, v) :: rest else (k', v') :: dictInsert rest k v

/-- `os.remove` of file `fn` from the cache directory, guarded by
`os.path.exists` (absent file: no change). -/
def removeFile : List (String × List Nat) → String → List (String × List Nat)
  | [], _ => []
  | (k, v) :: rest, fn =>
      if k = fn then removeFile rest fn else (k, v) :: removeFile rest fn

/-- `ProxyServer.CACHE_SIZE_LIMIT`: maximum number of cached items. -/
def CACHE_SIZE_LIMIT : Nat := 10

/-- The mutable state of a `ProxyServer` instance: the in-memory cache
dictionary `self.cache` (URI → cache file name, in insertion order) and the
contents of the cache directory (file name → raw response bytes). -/
structure ProxyState where
  cache : List (String × String)
  disk : List (String × List Nat)
deriving Repr, DecidableEq

/-- What `handle_client` sends back to the client: either a synthesized
status response built by `send_response`, or the raw upstream bytes relayed
by `client_socket.sendall(response)`. -/
inductive Sent where
  | status (code : Nat) (reason : String)
  | relayed (body : List Nat)
deriving Repr, DecidableEq

/-- Outcome of one `ProxyServer.handle_client` call: the state afterwards,
what was sent to the client (at most one message), whether an outbound
connection to the upstream web server was attempted, and whether an uncaught
exception escaped the handler (the `try` block has only a `finally`). -/
structure HandleResult where
  state : ProxyState
  sent : Option Sent
  contacted : Bool
  crashed : Bool
deriving Repr, DecidableEq

/-- `ProxyServer.cache_key`: replace every `/` by `_` (Python
`uri.replace("/", "_")` for the one-character pattern is a character map). -/
def cache_key (uri : String) : String :=
  String.mk (uri.data.map (fun c => if c = '/' then '_' else c))

/-- `ProxyServer.is_cache_full`. -/
def is_cache_full (s : ProxyState) : Bool :=
  decide (CACHE_SIZE_LIMIT ≤ s.cache.length)

/-- `ProxyServer.evict_cache`: if the cache is non-empty, remove the first
(oldest-inserted) entry from the dictionary and its file from disk. -/
def evict_cache (s : ProxyState) : ProxyState :=
  match s.cache with
  | [] => s
  | (_, fn) :: rest => { cache := rest, disk := removeFile s.disk fn }

/-- Lines 118–124 of `handle_client`: evict if the cache is full, write the
response bytes to the cache file, record the URI → file-name mapping. -/
def cache_store (s : ProxyState) (uri : String) (resp : List Nat) : ProxyState :=
  let s1 := if is_cache_full s then evict_cache s else s
  { cache := dictInsert s1.cache uri (cache_key uri)
    disk := dictInsert s1.disk (cache_key uri) resp }

/-- Lines 72–75 of `handle_client`: strip a literal `http://` scheme prefix,
then slice from the first `/` of the remainder (Python `find` returns `-1`
when there is none, making the slice take the last character). -/
def normalize_uri (uri0 : String) : String :=
  if pyStartsWith uri0 "http://" then
    pySliceFrom (pyDrop uri0 7) (pyFind (pyDrop uri0 7) '/')
  else uri0

/-- Lines 94–130 of `handle_client`: numeric-size validation of the URI, then
the forward to the upstream web server with caching of the response.
`upstream uri = none` models `ConnectionRefusedError` on connect. -/
def validate_and_forward (s : ProxyState) (uri : String)
    (upstream : String → Option (List Nat)) : HandleResult :=
  match pythonInt (pyDrop uri 1) with
  | none => ⟨s, some (Sent.status 400 "Bad Request"), false, false⟩
  | some size =>
      if 9999 < size then
        ⟨s, some (Sent.status 414 "Request-URI Too Long"), false, false⟩
      else
        match upstream uri with
        | none => ⟨s, some (Sent.status 404 "Not Found"), true, false⟩
        | some resp => ⟨cache_store s uri resp, some (Sent.relayed resp), true, false⟩

/-- Lines 67–130 of `handle_client`, after the request line has been unpacked
into `method`, `uri0` and the (otherwise unused) version token. -/
def handle_request (s : ProxyState) (method uri0 : String)
    (upstream : String → Option (List Nat)) : HandleResult :=
  if method ≠ "GET" then ⟨s, some (Sent.status 501 "Not Implemented"), false, false⟩
  else if pyStartsWith (normalize_uri uri0) "/" then
    match dictLookup s.cache (normalize_uri uri0) with
    | some fn =>
        if fn.length % 2 = 1 then
          ⟨s, some (Sent.status 304 "Not Modified"), false, false⟩
        else validate_and_forward s (normalize_uri uri0) upstream
    | none => validate_and_forward s (normalize_uri uri0) upstream
  else ⟨s, some (Sent.status 400 "Bad Request"), false, false⟩

/-- `ProxyServer.handle_client` on the decoded request string.  A request
line of more than three tokens makes the three-way unpacking
`method, uri, version = parts` raise an uncaught `ValueError` (there is no
`except` around it), so nothing is sent and the handler crashes. -/
def handle_client (s : ProxyState) (request : String)
    (upstream : String → Option (List Nat)) : HandleResult :=
  match pySplitlines request with
  | [] => ⟨s, none, false, false⟩
  | request_line :: _ =>
      match pySplitWs request_line with
      | [] => ⟨s, some (Sent.status 400 "Bad Request"), false, false⟩
      | [_] => ⟨s, some (Sent.status 400 "Bad Request"), false, false⟩
      | [_, _] => ⟨s, some (Sent.status 400 "Bad Request"), false, false⟩
      | [method, uri0, _version] => handle_request s method uri0 upstream
      | _ :: _ :: _ :: _ :: _ => ⟨s, none, false, true⟩

/-- `WebServer.handle_client` (`src/webServer.py`): returns the raw byte
string sent to the client (as a string, the stub only ever sends UTF-8 text)
and a crash flag.  The unpacking `method, uri, version = request_line.split()`
raises an uncaught `ValueError` unless there are exactly three tokens. -/
def web_handle_client (request : String) : Option String × Bool :=
  match pySplitlines request with
  | [] => (none, false)
  | request_line :: _ =>
      match pySplitWs request_line with
      | [method, uri, _version] =>
          if method ≠ "GET" then (some "HTTP/1.1 501 Not Implemented\r\n\r\n", false)
          else
            match pythonInt (String.mk (pyLStripChar uri.data '/')) with
            | none => (some "HTTP/1.1 400 Bad Request\r\n\r\n", false)
            | some size =>
                if size < 100 ∨ 20000 < size then
                  (some "HTTP/1.1 400 Bad Request\r\n\r\n", false)
                else
                  let content := "<HTML><BODY>" ++
                    String.mk (List.replicate (size - 26).toNat 'a') ++ "</BODY></HTML>"
                  (some ("HTTP/1.1 200 OK\r\nContent-Type: text/html\r\nContent-Length: " ++
                    toString content.length ++ "\r\n\r\n" ++ content), false)
      | _ => (none, true)

/-- Proxy states reachable by sequentially handling any requests against any
upstream behaviours, starting from a fresh `ProxyServer` (empty cache
dictionary; the cache directory may hold arbitrary stale files). -/
inductive Reachable : ProxyState → Prop
  | init (d : List (String × List Nat)) : Reachable ⟨[], d⟩
  | step (s : ProxyState) (r : String) (u : String → Option (List Nat)) :
      Reachable s → Reachable (handle_client s r u).state

/-- A URI that can become a cache key: it survived the leading-`/` check and
the numeric-size validation of `handle_client`. -/
def ValidKey (uri : String) : Prop :=
  pyStartsWith uri "/" = true ∧
  ∃ n : Int, pythonInt (pyDrop uri 1) = some n ∧ n ≤ 9999

/-- The state invariant maintained by `handle_client`: the cache dictionary
is bounded by `CACHE_SIZE_LIMIT`, keys are unique, and every entry maps a
validated URI to its `cache_key` file name whose file is present on disk. -/
def Inv (s : ProxyState) : Prop :=
  s.cache.length ≤ CACHE_SIZE_LIMIT ∧
  (s.cache.map Prod.fst).Nodup ∧
  ∀ p ∈ s.cache, ValidKey p.1 ∧ p.2 = cache_key p.1 ∧
    (dictLookup s.disk p.2).isSome = true

theorem dictLookup_mem {β : Type} {l : List (String × β)} {k : String} {v : β}
    (h : dictLookup l k = some v) : (k, v) ∈ l := by
  induction l with
  | nil => simp [dictLookup] at h
  | cons p rest ih =>
      obtain ⟨k', v'⟩ := p
      by_cases hk : k' = k
      · subst hk
        rw [dictLookup, if_pos rfl] at h
        obtain rfl := Option.some.inj h
        exact List.mem_cons_self _ _
      · simp only [dictLookup, if_neg hk] at h
        exact List.mem_cons_of_mem _ (ih h)

theorem dictLookup_isSome_of_mem {β : Type} {l : List (String × β)}
    {k : String} {v : β} (h : (k, v) ∈ l) : (dictLookup l k).isSome = true := by
  induction l with
  | nil => simp at h
  | cons p rest ih =>
      obtain ⟨k', v'⟩ := p
      rcases List.mem_cons.mp h with h1 | h1
      · obtain ⟨hk, _⟩ := Prod.mk.injEq .. ▸ h1
        simp [dictLookup, hk.symm]
      · by_cases hk : k' = k
        · simp [dictLookup, hk]
        · simpa [dictLookup, hk] using ih h1

theorem mem_dictInsert {β : Type} {l : List (String × β)} {k : String} {v : β}
    {p : String × β} (h : p ∈ dictInsert l k v) : p = (k, v) ∨ p ∈ l := by
  induction l with
  | nil => simpa [dictInsert] using h
  | cons q rest ih =>
      obtain ⟨k', v'⟩ := q
      by_cases hk : k' = k
      · simp only [dictInsert, if_pos hk] at h
        rcases List.mem_cons.mp h with h1 | h1
        · exact Or.inl h1
        · exact Or.inr (List.mem_cons_of_mem _ h1)
      · simp only [dictInsert, if_neg hk] at h
        rcases List.mem_cons.mp h with h1 | h1
        · exact Or.inr (h1 ▸ List.mem_cons_self _ _)
        · rcases ih h1 with h2 | h2
          · exact Or.inl h2
          · exact Or.inr (List.mem_cons_of_mem _ h2)

theorem dictLookup_dictInsert_self {β : Type} (l : List (String × β))
    (k : String) (v : β) : dictLookup (dictInsert l k v) k = some v := by
  induction l with
  | nil => simp [dictInsert, dictLookup]
  | cons q rest ih =>
      obtain ⟨k', v'⟩ := q
      by_cases hk : k' = k
      · simp [dictInsert, hk, dictLookup]
      · simp [dictInsert, hk, dictLookup, ih]

theorem dictLookup_dictInsert_ne {β : Type} (l : List (String × β))
    (k k' : String) (v : β) (h : k' ≠ k) :
    dictLookup (dictInsert l k v) k' = dictLookup l k' := by
  induction l with
  | nil => simp [dictInsert, dictLookup, Ne.symm h]
  | cons q rest ih =>
      obtain ⟨k0, v0⟩ := q
      by_cases hk : k0 = k
      · subst hk
        simp [dictInsert, dictLookup, Ne.symm h]
      · simp [dictInsert, hk, dictLookup, ih]

theorem length_dictInsert_le {β : Type} (l : List (String × β)) (k : String)
    (v : β) : (dictInsert l k v).length ≤ l.length + 1 := by
  induction l with
  | nil => simp [dictInsert]
  | cons q rest ih =>
      obtain ⟨k', v'⟩ := q
      by_cases hk : k' = k
      · simp [dictInsert, hk]
      · simp only [dictInsert, if_neg hk, List.length_cons]
        omega

theorem mem_keys_dictInsert {β : Type} {l : List (String × β)} {k q : String}
    {v : β} (h : q ∈ (dictInsert l k v).map Prod.fst) :
    q = k ∨ q ∈ l.map Prod.fst := by
  rcases List.mem_map.mp h with ⟨p, hp, hq⟩
  rcases mem_dictInsert hp with h1 | h1
  · exact Or.inl (hq ▸ h1 ▸ rfl)
  · exact Or.inr (hq ▸ List.mem_map_of_mem _ h1)

theorem nodup_keys_dictInsert {β : Type} {l : List (String × β)} (k : String)
    (v : β) (h : (l.map Prod.fst).Nodup) :
    ((dictInsert l k v).map Prod.fst).Nodup := by
  induction l with
  | nil => simp [dictInsert]
  | cons q rest ih =>
      obtain ⟨k', v'⟩ := q
      simp only [List.map_cons, List.nodup_cons] at h
      by_cases hk : k' = k
      · subst hk
        simpa [dictInsert, List.nodup_cons] using h
      · simp only [dictInsert, if_neg hk, List.map_cons, List.nodup_cons]
        refine ⟨fun hmem => ?_, ih h.2⟩
        rcases mem_keys_dictInsert hmem with h1 | h1
        · exact hk h1
        · exact h.1 h1

theorem dictLookup_removeFile_ne (d : List (String × List Nat))
    (k fn : String) (h : k ≠ fn) :
    dictLookup (removeFile d fn) k = dictLookup d k := by
  induction d with
  | nil => simp [removeFile]
  | cons q rest ih =>
      obtain ⟨k0, v0⟩ := q
      by_cases hk : k0 = fn
      · subst hk
        simp [removeFile, dictLookup, ih, Ne.symm h]
      · simp [removeFile, hk, dictLookup, ih]

theorem mem_pyStripLeft {l : List Char} {c : Char} (hc : pyIsSpace c = false)
    (h : c ∈ l) : c ∈ pyStripLeft l := by
  induction l with
  | nil => cases h
  | cons d rest ih =>
      rw [pyStripLeft]
      by_cases hd : pyIsSpace d = true
      · rw [if_pos hd]
        rcases List.mem_cons.mp h with h1 | h1
        · rw [h1] at hc; rw [hc] at hd; cases hd
        · exact ih h1
      · rw [if_neg hd]
        exact h

theorem mem_pyStrip {l : List Char} {c : Char} (hc : pyIsSpace c = false)
    (h : c ∈ l) : c ∈ pyStrip l := by
  rw [pyStrip, List.mem_reverse]
  exact mem_pyStripLeft hc (by rw [List.mem_reverse]; exact mem_pyStripLeft hc h)

theorem digitsAux_ne_slash {l : List Char} {b : Bool} {acc n : Nat}
    (h : digitsAux l b acc = some n) : '/' ∉ l := by
  induction l generalizing b acc with
  | nil => simp
  | cons c rest ih =>
      rw [digitsAux] at h
      by_cases hd : c.isDigit = true
      · rw [if_pos hd] at h
        intro hm
        rcases List.mem_cons.mp hm with h1 | h1
        · rw [← h1] at hd; exact absurd hd (by decide)
        · exact ih h h1
      · rw [if_neg hd] at h
        by_cases hu : (c = '_' && !b) = true
        · rw [if_pos hu] at h
          intro hm
          rcases List.mem_cons.mp hm with h1 | h1
          · rw [← h1] at hu
            exact absurd hu (by simp)
          · exact ih h h1
        · rw [if_neg hu] at h; cases h

theorem parseDigits_ne_slash {l : List Char} {n : Nat}
    (h : parseDigits l = some n) : '/' ∉ l :=
  digitsAux_ne_slash h

theorem pythonInt_ne_slash {s : String} {n : Int}
    (h : pythonInt s = some n) : '/' ∉ s.data := by
  intro hm
  have hm' : '/' ∈ pyStrip s.data := mem_pyStrip (by decide) hm
  rw [pythonInt] at h
  split at h
  · next he => rw [he] at hm'; cases hm'
  · next rest he =>
      rw [he] at hm'
      rcases List.mem_cons.mp hm' with h1 | h1
      · cases h1
      · rcases Option.map_eq_some'.mp h with ⟨m, hm2, _⟩
        exact parseDigits_ne_slash hm2 h1
  · next rest he =>
      rw [he] at hm'
      rcases List.mem_cons.mp hm' with h1 | h1
      · cases h1
      · rcases Option.map_eq_some'.mp h with ⟨m, hm2, _⟩
        exact parseDigits_ne_slash hm2 h1
  · rcases Option.map_eq_some'.mp h with ⟨m, hm2, _⟩
    exact parseDigits_ne_slash hm2 hm'

theorem startsWith_slash {u : String} (h : pyStartsWith u "/" = true) :
    ∃ t, u.data = '/' :: t := by
  rcases he : u.data with _ | ⟨c, rest⟩
  · rw [pyStartsWith, he] at h
    exact absurd h (by decide)
  · rw [pyStartsWith, he] at h
    have hd : String.data "/" = ['/'] := rfl
    rw [hd, isPrefixChars] at h
    rcases Bool.and_eq_true .. ▸ h with ⟨h1, _⟩
    have : '/' = c := of_decide_eq_true h1
    exact ⟨rest, by rw [← this]⟩

theorem startsWith_slash_intro {u : String} {t : List Char}
    (h : u.data = '/' :: t) : pyStartsWith u "/" = true := by
  rw [pyStartsWith, h]
  rfl

theorem cache_key_data (u : String) :
    (cache_key u).data = u.data.map (fun c => if c = '/' then '_' else c) := rfl

theorem cache_key_length (u : String) : (cache_key u).length = u.length :=
  List.length_map u.data (fun c => if c = '/' then '_' else c)

theorem map_repl_eq_self {l : List Char} (h : '/' ∉ l) :
    l.map (fun c => if c = '/' then '_' else c) = l := by
  induction l with
  | nil => rfl
  | cons c rest ih =>
      simp only [List.mem_cons, not_or] at h
      simp [Ne.symm h.1, ih h.2]

theorem pyDrop_one_data {u : String} {t : List Char} (h : u.data = '/' :: t) :
    (pyDrop u 1).data = t := by
  rw [pyDrop, h]
  rfl

theorem cache_key_inj {u v : String} (hu : ValidKey u) (hv : ValidKey v)
    (h : cache_key u = cache_key v) : u = v := by
  obtain ⟨hu1, nu, hu2, _⟩ := hu
  obtain ⟨hv1, nv, hv2, _⟩ := hv
  obtain ⟨tu, htu⟩ := startsWith_slash hu1
  obtain ⟨tv, htv⟩ := startsWith_slash hv1
  have hnu : '/' ∉ tu := by
    have h2 := pythonInt_ne_slash hu2
    rw [pyDrop_one_data htu] at h2
    exact h2
  have hnv : '/' ∉ tv := by
    have h2 := pythonInt_ne_slash hv2
    rw [pyDrop_one_data htv] at h2
    exact h2
  have h' := congrArg String.data h
  rw [cache_key_data, cache_key_data, htu, htv, List.map_cons, List.map_cons,
    map_repl_eq_self hnu, map_repl_eq_self hnv] at h'
  have hdv : u.data = v.data := by
    rw [htu, htv]
    exact List.cons_eq_cons.mpr ⟨rfl, (List.cons_eq_cons.mp h').2⟩
  cases u; cases v
  exact congrArg String.mk hdv

theorem inv_init (d : List (String × List Nat)) : Inv ⟨[], d⟩ := by
  refine ⟨by simp [CACHE_SIZE_LIMIT], by simp, ?_⟩
  intro p hp
  exact absurd hp (List.not_mem_nil p)

theorem evict_cache_length {s : ProxyState} (h : 0 < s.cache.length) :
    (evict_cache s).cache.length + 1 = s.cache.length := by
  rcases hc : s.cache with _ | ⟨⟨k, fn⟩, rest⟩
  · rw [hc] at h; simp at h
  · simp [evict_cache, hc]

theorem inv_evict {s : ProxyState} (h : Inv s) : Inv (evict_cache s) := by
  obtain ⟨hlen, hnd, hent⟩ := h
  rcases hc : s.cache with _ | ⟨⟨k0, fn0⟩, rest⟩
  · have he : evict_cache s = s := by simp [evict_cache, hc]
    rw [he]
    exact ⟨hlen, hnd, hent⟩
  · have he : evict_cache s = ⟨rest, removeFile s.disk fn0⟩ := by
      simp [evict_cache, hc]
    rw [hc] at hlen hnd
    rw [he]
    obtain ⟨vk0, hfn0, _⟩ := hent ⟨k0, fn0⟩ (by rw [hc]; exact List.mem_cons_self _ _)
    simp only [List.map_cons, List.nodup_cons] at hnd
    refine ⟨by simpa using Nat.le_of_succ_le hlen, hnd.2, ?_⟩
    intro p hp
    obtain ⟨vkp, hfnp, hdiskp⟩ := hent p (by rw [hc]; exact List.mem_cons_of_mem _ hp)
    refine ⟨vkp, hfnp, ?_⟩
    have hne : p.2 ≠ fn0 := by
      intro hpe
      have : p.1 = k0 := cache_key_inj vkp vk0 (by rw [← hfnp, ← hfn0, hpe])
      exact hnd.1 (this ▸ List.mem_map_of_mem Prod.fst hp)
    rw [dictLookup_removeFile_ne _ _ _ hne]
    exact hdiskp

theorem cache_store_def (s : ProxyState) (uri : String) (resp : List Nat) :
    cache_store s uri resp =
      ⟨dictInsert (if is_cache_full s then evict_cache s else s).cache uri (cache_key uri),
       dictInsert (if is_cache_full s then evict_cache s else s).disk (cache_key uri) resp⟩ :=
  rfl

theorem inv_cache_store {s : ProxyState} (h : Inv s) {uri : String}
    (hv : ValidKey uri) (resp : List Nat) : Inv (cache_store s uri resp) := by
  rw [cache_store_def]
  have h1 : Inv (if is_cache_full s then evict_cache s else s) := by
    split
    · exact inv_evict h
    · exact h
  have hlen1 : (if is_cache_full s then evict_cache s else s).cache.length + 1
      ≤ CACHE_SIZE_LIMIT := by
    split
    · next hfull =>
        have hge : CACHE_SIZE_LIMIT ≤ s.cache.length := of_decide_eq_true hfull
        have h0 : 0 < s.cache.length := by
          have : 0 < CACHE_SIZE_LIMIT := by decide
          omega
        have := evict_cache_length h0
        have := h.1
        omega
    · next hnfull =>
        have : ¬ CACHE_SIZE_LIMIT ≤ s.cache.length := by
          simpa [is_cache_full] using hnfull
        omega
  obtain ⟨_, hnd1, hent1⟩ := h1
  refine ⟨?_, nodup_keys_dictInsert _ _ hnd1, ?_⟩
  · dsimp only
    have := length_dictInsert_le
      (if is_cache_full s then evict_cache s else s).cache uri (cache_key uri)
    omega
  · intro p hp
    rcases mem_dictInsert hp with h2 | h2
    · subst h2
      refine ⟨hv, rfl, ?_⟩
      rw [dictLookup_dictInsert_self]
      rfl
    · obtain ⟨vkp, hfnp, hdiskp⟩ := hent1 p h2
      refine ⟨vkp, hfnp, ?_⟩
      by_cases hpk : p.2 = cache_key uri
      · rw [hpk, dictLookup_dictInsert_self]
        rfl
      · rw [dictLookup_dictInsert_ne _ _ _ _ hpk]
        exact hdiskp

theorem validate_state_cases (s : ProxyState) (uri : String)
    (u : String → Option (List Nat)) (hstart : pyStartsWith uri "/" = true) :
    (validate_and_forward s uri u).state = s ∨
    ∃ resp, ValidKey uri ∧
      (validate_and_forward s uri u).state = cache_store s uri resp := by
  rw [validate_and_forward]
  split
  · exact Or.inl rfl
  · next size heq =>
      split
      · exact Or.inl rfl
      · next hle =>
          split
          · exact Or.inl rfl
          · next resp hresp =>
              exact Or.inr ⟨resp, ⟨hstart, size, heq, by omega⟩, rfl⟩

theorem handle_request_state_cases (s : ProxyState) (m uri0 : String)
    (u : String → Option (List Nat)) :
    (handle_request s m uri0 u).state = s ∨
    ∃ uri resp, ValidKey uri ∧
      (handle_request s m uri0 u).state = cache_store s uri resp := by
  rw [handle_request]
  split
  · exact Or.inl rfl
  · split
    · next hstart =>
        split
        · next fn hfn =>
            split
            · exact Or.inl rfl
            · rcases validate_state_cases s (normalize_uri uri0) u hstart with h1 | ⟨resp, hv, h1⟩
              · exact Or.inl h1
              · exact Or.inr ⟨normalize_uri uri0, resp, hv, h1⟩
        · rcases validate_state_cases s (normalize_uri uri0) u hstart with h1 | ⟨resp, hv, h1⟩
          · exact Or.inl h1
          · exact Or.inr ⟨normalize_uri uri0, resp, hv, h1⟩
    · exact Or.inl rfl

theorem handle_client_state_cases (s : ProxyState) (r : String)
    (u : String → Option (List Nat)) :
    (handle_client s r u).state = s ∨
    ∃ uri resp, ValidKey uri ∧
      (handle_client s r u).state = cache_store s uri resp := by
  rw [handle_client]
  split
  · exact Or.inl rfl
  · split
    · exact Or.inl rfl
    · exact Or.inl rfl
    · exact Or.inl rfl
    · exact handle_request_state_cases ..
    · exact Or.inl rfl

theorem inv_handle_client {s : ProxyState} (h : Inv s) (r : String)
    (u : String → Option (List Nat)) : Inv (handle_client s r u).state := by
  rcases handle_client_state_cases s r u with he | ⟨uri, resp, hv, he⟩
  · rw [he]; exact h
  · rw [he]; exact inv_cache_store h hv resp

theorem inv_reachable {s : ProxyState} (h : Reachable s) : Inv s := by
  induction h with
  | init d => exact inv_init d
  | step s r u _ ih => exact inv_handle_client ih r u

theorem not_startsWith_http {uri : String} {t : List Char}
    (ht : uri.data = '/' :: t) : pyStartsWith uri "http://" = false := by
  rw [pyStartsWith, ht]
  rfl

theorem normalize_uri_slash {uri : String} (h : pyStartsWith uri "/" = true) :
    normalize_uri uri = uri := by
  obtain ⟨t, ht⟩ := startsWith_slash h
  simp [normalize_uri, not_startsWith_http ht]

theorem handle_client_eq_request (s : ProxyState) (r : String)
    (u : String → Option (List Nat)) {line m uri0 v : String}
    {restL : List String} (h1 : pySplitlines r = line :: restL)
    (h2 : pySplitWs line = [m, uri0, v]) :
    handle_client s r u = handle_request s m uri0 u := by
  simp only [handle_client, h1, h2]

theorem handle_request_miss (s : ProxyState) (uri0 : String)
    (u : String → Option (List Nat))
    (hstart : pyStartsWith (normalize_uri uri0) "/" = true)
    (hmiss : dictLookup s.cache (normalize_uri uri0) = none) :
    handle_request s "GET" uri0 u = validate_and_forward s (normalize_uri uri0) u := by
  rw [handle_request, if_neg (by simp), if_pos hstart, hmiss]

theorem handle_request_hit_odd (s : ProxyState) (uri0 : String)
    (u : String → Option (List Nat)) {fn : String}
    (hstart : pyStartsWith (normalize_uri uri0) "/" = true)
    (hhit : dictLookup s.cache (normalize_uri uri0) = some fn)
    (hodd : fn.length % 2 = 1) :
    handle_request s "GET" uri0 u
      = ⟨s, some (Sent.status 304 "Not Modified"), false, false⟩ := by
  rw [handle_request, if_neg (by simp), if_pos hstart, hhit]
  simp [hodd]

theorem handle_request_hit_even (s : ProxyState) (uri0 : String)
    (u : String → Option (List Nat)) {fn : String}
    (hstart : pyStartsWith (normalize_uri uri0) "/" = true)
    (hhit : dictLookup s.cache (normalize_uri uri0) = some fn)
    (heven : ¬ fn.length % 2 = 1) :
    handle_request s "GET" uri0 u = validate_and_forward s (normalize_uri uri0) u := by
  rw [handle_request, if_neg (by simp), if_pos hstart, hhit]
  simp [heven]

theorem validate_sent_not_304 (s : ProxyState) (uri : String)
    (u : String → Option (List Nat)) :
    (validate_and_forward s uri u).sent ≠ some (Sent.status 304 "Not Modified") := by
  rw [validate_and_forward]
  split
  · simp
  · split
    · simp
    · split
      · simp
      · simp

theorem validate_refused (s : ProxyState) (uri : String)
    (u : String → Option (List Nat)) (hu : ∀ q, u q = none) :
    ((validate_and_forward s uri u).contacted = true →
      (validate_and_forward s uri u).sent = some (Sent.status 404 "Not Found")) ∧
    (validate_and_forward s uri u).state = s := by
  rw [validate_and_forward]
  split
  · exact ⟨(fun h => nomatch h), rfl⟩
  · split
    · exact ⟨(fun h => nomatch h), rfl⟩
    · rw [hu uri]
      exact ⟨fun _ => rfl, rfl⟩

theorem handle_request_refused (s : ProxyState) (m uri0 : String)
    (u : String → Option (List Nat)) (hu : ∀ q, u q = none) :
    ((handle_request s m uri0 u).contacted = true →
      (handle_request s m uri0 u).sent = some (Sent.status 404 "Not Found")) ∧
    (handle_request s m uri0 u).state = s := by
  rw [handle_request]
  split
  · exact ⟨(fun h => nomatch h), rfl⟩
  · split
    · split
      · split
        · exact ⟨(fun h => nomatch h), rfl⟩
        · exact validate_refused s _ u hu
      · exact validate_refused s _ u hu
    · exact ⟨(fun h => nomatch h), rfl⟩

theorem handle_client_refused (s : ProxyState) (r : String)
    (u : String → Option (List Nat)) (hu : ∀ q, u q = none) :
    ((handle_client s r u).contacted = true →
      (handle_client s r u).sent = some (Sent.status 404 "Not Found")) ∧
    (handle_client s r u).state = s := by
  rw [handle_client]
  split
  · exact ⟨(fun h => nomatch h), rfl⟩
  · split
    · exact ⟨(fun h => nomatch h), rfl⟩
    · exact ⟨(fun h => nomatch h), rfl⟩
    · exact ⟨(fun h => nomatch h), rfl⟩
    · exact handle_request_refused _ _ _ _ hu
    · exact ⟨(fun h => nomatch h), rfl⟩

theorem data_append (a b : String) : (a ++ b).data = a.data ++ b.data := rfl

theorem isPrefixChars_append (p t : List Char) : isPrefixChars p (p ++ t) = true := by
  induction p with
  | nil => rfl
  | cons c rest ih => simp [isPrefixChars, ih]

theorem findCharIdx_append {h : List Char} (hn : '/' ∉ h) (t : List Char) :
    findCharIdx (h ++ '/' :: t) '/' = some h.length := by
  induction h with
  | nil => rfl
  | cons c rest ih =>
      simp only [List.mem_cons, not_or] at hn
      rw [List.cons_append, findCharIdx, if_neg (Ne.symm hn.1), ih hn.2]
      rfl

theorem normalize_http (host path : String) (hh : '/' ∉ host.data) :
    normalize_uri ("http://" ++ host ++ "/" ++ path) = "/" ++ path := by
  have hdata : ("http://" ++ host ++ "/" ++ path).data
      = String.data "http://" ++ (host.data ++ '/' :: path.data) := by
    rw [data_append, data_append, data_append, List.append_assoc, List.append_assoc]
    rfl
  have hpre : pyStartsWith ("http://" ++ host ++ "/" ++ path) "http://" = true := by
    rw [pyStartsWith, hdata]
    exact isPrefixChars_append _ _
  have hdrop : (pyDrop ("http://" ++ host ++ "/" ++ path) 7).data
      = host.data ++ '/' :: path.data := by
    show ("http://" ++ host ++ "/" ++ path).data.drop 7 = _
    rw [hdata]
    exact List.drop_left' rfl
  have hfind : pyFind (pyDrop ("http://" ++ host ++ "/" ++ path) 7) '/'
      = (host.data.length : Int) := by
    rw [pyFind, hdrop, findCharIdx_append hh]
  rw [normalize_uri, if_pos hpre, hfind, pySliceFrom,
    if_pos (by positivity), Int.toNat_natCast, hdrop, List.drop_left]
  rfl

theorem keys_dictInsert_of_mem {β : Type} {l : List (String × β)} {k : String}
    (v : β) (hk : k ∈ l.map Prod.fst) :
    (dictInsert l k v).map Prod.fst = l.map Prod.fst := by
  induction l with
  | nil => simp at hk
  | cons q rest ih =>
      obtain ⟨k', v'⟩ := q
      by_cases he : k' = k
      · subst he
        simp [dictInsert]
      · rw [List.map_cons, List.mem_cons] at hk
        rcases hk with h1 | h1
        · exact absurd h1.symm he
        · simp [dictInsert, he, ih h1]

theorem dictInsert_of_not_mem {β : Type} {l : List (String × β)} {k : String}
    (v : β) (hk : k ∉ l.map Prod.fst) : dictInsert l k v = l ++ [(k, v)] := by
  induction l with
  | nil => rfl
  | cons q rest ih =>
      obtain ⟨k', v'⟩ := q
      simp only [List.map_cons, List.mem_cons, not_or] at hk
      simp [dictInsert, Ne.symm hk.1, ih hk.2]

theorem reachable_one_entry :
    Reachable (⟨[("/200", "_200")], [("_200", [65, 66])]⟩ : ProxyState) := by
  have h := Reachable.step ⟨[], []⟩ "GET /200 HTTP/1.1\r\n\r\n"
    (fun _ => some [65, 66]) (Reachable.init [])
  exact h

/-- C1: the claim says that a cached response of odd byte length makes the
proxy answer 304 Not Modified on a repeat GET, without contacting upstream.
The code instead computes `file_length = len(self.cache[uri])`, the length of
the stored *file name*, not of the cached response bytes.  Concretely: a GET
for `/200` whose upstream response is the single byte `[65]` (odd length)
caches the entry `/200 ↦ _200` with file contents `[65]`; the immediate
repeat GET for `/200` finds `len("_200") = 4`, even, so it re-forwards and
relays the body instead of answering 304 — contradicting the claim. -/
theorem C1_code_divergence :
    (handle_client ⟨[], []⟩ "GET /200 HTTP/1.1\r\n\r\n" (fun _ => some [65])).state
      = ⟨[("/200", "_200")], [("_200", [65])]⟩ ∧
    (handle_client ⟨[("/200", "_200")], [("_200", [65])]⟩ "GET /200 HTTP/1.1\r\n\r\n"
        (fun _ => some [65])).sent = some (Sent.relayed [65]) ∧
    (handle_client ⟨[("/200", "_200")], [("_200", [65])]⟩ "GET /200 HTTP/1.1\r\n\r\n"
        (fun _ => some [65])).sent ≠ some (Sent.status 304 "Not Modified") ∧
    (handle_client ⟨[("/200", "_200")], [("_200", [65])]⟩ "GET /200 HTTP/1.1\r\n\r\n"
        (fun _ => some [65])).contacted = true := by
  exact ⟨rfl, rfl, by decide, rfl⟩

/-- C2: in every reachable state the cache dictionary holds at most
`CACHE_SIZE_LIMIT` entries, and whenever the `is_cache_full` test fires on
such a state the cache is non-empty and `evict_cache` removes exactly one
entry before the subsequent insert. -/
theorem C2_cache_size_bounded (s : ProxyState) (h : Reachable s) :
    s.cache.length ≤ CACHE_SIZE_LIMIT ∧
    (is_cache_full s = true →
      0 < s.cache.length ∧ (evict_cache s).cache.length + 1 = s.cache.length) := by
  have hInv := inv_reachable h
  refine ⟨hInv.1, fun hfull => ?_⟩
  have hge : CACHE_SIZE_LIMIT ≤ s.cache.length := of_decide_eq_true hfull
  have h0 : 0 < s.cache.length := by
    have hpos : 0 < CACHE_SIZE_LIMIT := by decide
    omega
  exact ⟨h0, evict_cache_length h0⟩

theorem C2_cache_size_bounded_witness :
    (⟨[], []⟩ : ProxyState).cache.length ≤ CACHE_SIZE_LIMIT ∧
    (is_cache_full (⟨[], []⟩ : ProxyState) = true →
      0 < (⟨[], []⟩ : ProxyState).cache.length ∧
      (evict_cache ⟨[], []⟩).cache.length + 1
        = (⟨[], []⟩ : ProxyState).cache.length) :=
  C2_cache_size_bounded ⟨[], []⟩ (Reachable.init [])

/-- C3: on a non-empty cache, `evict_cache` removes exactly the first entry
of the insertion-ordered dictionary (the earliest-inserted surviving entry,
independent of any access) together with its file; and the dictionary
assignment `self.cache[uri] = ...` modelled by `dictInsert` leaves the key
order untouched when the key is already present (so re-caching never updates
a key's position), while a genuinely new key is appended at the end. -/
theorem C3_fifo_eviction (s : ProxyState) (e : String × String)
    (rest : List (String × String)) (h : s.cache = e :: rest)
    (l : List (String × String)) (k v : String) :
    (evict_cache s).cache = rest ∧
    (evict_cache s).disk = removeFile s.disk e.2 ∧
    (k ∈ l.map Prod.fst →
      (dictInsert l k v).map Prod.fst = l.map Prod.fst) ∧
    (k ∉ l.map Prod.fst → dictInsert l k v = l ++ [(k, v)]) := by
  obtain ⟨k0, fn0⟩ := e
  exact ⟨by simp [evict_cache, h], by simp [evict_cache, h],
    fun hk => keys_dictInsert_of_mem v hk, fun hk => dictInsert_of_not_mem v hk⟩

theorem C3_fifo_eviction_witness :
    (evict_cache ⟨[("/1", "_1"), ("/22", "_22")], [("_1", [1]), ("_22", [2])]⟩).cache
      = [("/22", "_22")] ∧
    (evict_cache ⟨[("/1", "_1"), ("/22", "_22")], [("_1", [1]), ("_22", [2])]⟩).disk
      = removeFile [("_1", [1]), ("_22", [2])] "_1" ∧
    ("/1" ∈ ([("/1", "_1"), ("/22", "_22")] : List (String × String)).map Prod.fst →
      (dictInsert [("/1", "_1"), ("/22", "_22")] "/1" "_1").map Prod.fst
        = ([("/1", "_1"), ("/22", "_22")] : List (String × String)).map Prod.fst) ∧
    ("/1" ∉ ([("/1", "_1"), ("/22", "_22")] : List (String × String)).map Prod.fst →
      dictInsert [("/1", "_1"), ("/22", "_22")] "/1" "_1"
        = [("/1", "_1"), ("/22", "_22")] ++ [("/1", "_1")]) :=
  C3_fifo_eviction ⟨[("/1", "_1"), ("/22", "_22")], [("_1", [1]), ("_22", [2])]⟩
    ("/1", "_1") [("/22", "_22")] rfl [("/1", "_1"), ("/22", "_22")] "/1" "_1"

/-- C4: in every reachable state, every URI present as a key of the cache
index has its backing file present in the cache directory: the index entry
and the stored file are removed and created together. -/
theorem C4_index_file_together (s : ProxyState) (h : Reachable s)
    (uri fn : String) (hl : dictLookup s.cache uri = some fn) :
    (dictLookup s.disk fn).isSome = true := by
  obtain ⟨_, _, hent⟩ := inv_reachable h
  obtain ⟨_, _, hd⟩ := hent (uri, fn) (dictLookup_mem hl)
  exact hd

theorem C4_index_file_together_witness :
    (dictLookup (⟨[("/200", "_200")], [("_200", [65, 66])]⟩ : ProxyState).disk
      "_200").isSome = true :=
  C4_index_file_together _ reachable_one_entry "/200" "_200" rfl

/-- C5: in every reachable state a well-formed `GET /99999` request is
answered 414 Request-URI Too Long (no reachable cache entry can
short-circuit it, since cached URIs always validated to a size at most
9999); and in general, after the cache-hit check — which does run first —
fails to short-circuit (miss, or hit with even stored length), a URI whose
size segment parses to an integer above 9999 is answered 414. -/
theorem C5_uri_too_long (s : ProxyState) (h : Reachable s)
    (u : String → Option (List Nat)) (t : ProxyState) (uri0 : String) (n : Int)
    (hp : pythonInt (pyDrop (normalize_uri uri0) 1) = some n) (hgt : 9999 < n)
    (hstart : pyStartsWith (normalize_uri uri0) "/" = true)
    (hcache : ∀ fn, dictLookup t.cache (normalize_uri uri0) = some fn →
      fn.length % 2 = 0) :
    (handle_client s "GET /99999 HTTP/1.1\r\n\r\n" u).sent
      = some (Sent.status 414 "Request-URI Too Long") ∧
    (handle_request t "GET" uri0 u).sent
      = some (Sent.status 414 "Request-URI Too Long") := by
  constructor
  · have hmiss : dictLookup s.cache "/99999" = none := by
      rcases he : dictLookup s.cache "/99999" with _ | fn
      · rfl
      · obtain ⟨_, _, hent⟩ := inv_reachable h
        obtain ⟨⟨_, m, hm, hle⟩, _, _⟩ := hent ("/99999", fn) (dictLookup_mem he)
        have hv : pythonInt (pyDrop "/99999" 1) = some 99999 := by decide
        rw [hv] at hm
        obtain rfl := Option.some.inj hm
        omega
    have he1 : handle_client s "GET /99999 HTTP/1.1\r\n\r\n" u
        = handle_request s "GET" "/99999" u :=
      handle_client_eq_request s _ u rfl rfl
    have hn : normalize_uri "/99999" = "/99999" := rfl
    have he2 := handle_request_miss s "/99999" u (by decide) (hn ▸ hmiss)
    rw [he1, he2, hn]
    rfl
  · rcases he : dictLookup t.cache (normalize_uri uri0) with _ | fn
    · rw [handle_request_miss t uri0 u hstart he]
      simp only [validate_and_forward, hp]
      rw [if_pos hgt]
    · have heven := hcache fn he
      have he2 := handle_request_hit_even t uri0 u hstart he (by omega)
      rw [he2]
      simp only [validate_and_forward, hp]
      rw [if_pos hgt]

theorem C5_uri_too_long_witness :
    (handle_client ⟨[], []⟩ "GET /99999 HTTP/1.1\r\n\r\n" (fun _ => none)).sent
      = some (Sent.status 414 "Request-URI Too Long") ∧
    (handle_request ⟨[], []⟩ "GET" "/10000" (fun _ => none)).sent
      = some (Sent.status 414 "Request-URI Too Long") :=
  C5_uri_too_long ⟨[], []⟩ (Reachable.init []) (fun _ => none) ⟨[], []⟩
    "/10000" 10000 (by decide) (by decide) (by decide)
    (fun fn hfn => nomatch hfn)

/-- C6: an absolute-form URI `http://host/path` (with `/`-free host) is
normalized by stripping the scheme prefix and slicing from the first
remaining `/`, yielding `/path`; in particular
`http://localhost:8080/200` becomes `/200`, and a full request for it is
validated and cached under the normalized key `/200` (file `_200`) with the
upstream body relayed. -/
theorem C6_absolute_uri_normalization (host path : String)
    (hh : '/' ∉ host.data) (resp : List Nat) :
    normalize_uri ("http://" ++ host ++ "/" ++ path) = "/" ++ path ∧
    normalize_uri "http://localhost:8080/200" = "/200" ∧
    (handle_client ⟨[], []⟩ "GET http://localhost:8080/200 HTTP/1.1\r\n"
        (fun _ => some resp)).state.cache = [("/200", "_200")] ∧
    (handle_client ⟨[], []⟩ "GET http://localhost:8080/200 HTTP/1.1\r\n"
        (fun _ => some resp)).sent = some (Sent.relayed resp) :=
  ⟨normalize_http host path hh, rfl, rfl, rfl⟩

theorem C6_absolute_uri_normalization_witness :
    normalize_uri ("http://" ++ "localhost:8080" ++ "/" ++ "200")
      = "/" ++ "200" ∧
    normalize_uri "http://localhost:8080/200" = "/200" ∧
    (handle_client ⟨[], []⟩ "GET http://localhost:8080/200 HTTP/1.1\r\n"
        (fun _ => some [65])).state.cache = [("/200", "_200")] ∧
    (handle_client ⟨[], []⟩ "GET http://localhost:8080/200 HTTP/1.1\r\n"
        (fun _ => some [65])).sent = some (Sent.relayed [65]) :=
  C6_absolute_uri_normalization "localhost:8080" "200" (by decide) [65]

/-- C7: when every outbound connection to upstream is refused, any request
that reaches the forwarding step is answered 404 Not Found, and the proxy
state — cache index and cache directory alike — is left exactly as it was
(nothing is cached). -/
theorem C7_refused_404_no_cache (s : ProxyState) (r : String)
    (u : String → Option (List Nat)) (hu : ∀ q, u q = none) :
    ((handle_client s r u).contacted = true →
      (handle_client s r u).sent = some (Sent.status 404 "Not Found")) ∧
    (handle_client s r u).state = s :=
  handle_client_refused s r u hu

theorem C7_refused_404_no_cache_witness :
    ((handle_client ⟨[], []⟩ "GET /200 HTTP/1.1\r\n" (fun _ => none)).contacted
        = true →
      (handle_client ⟨[], []⟩ "GET /200 HTTP/1.1\r\n" (fun _ => none)).sent
        = some (Sent.status 404 "Not Found")) ∧
    (handle_client ⟨[], []⟩ "GET /200 HTTP/1.1\r\n" (fun _ => none)).state
      = ⟨[], []⟩ :=
  C7_refused_404_no_cache ⟨[], []⟩ "GET /200 HTTP/1.1\r\n" (fun _ => none)
    (fun _ => rfl)

/-- C8: malformed requests are answered locally, without contacting upstream
and without touching the cache or the disk: the empty request gets no
response at all; a request line of fewer than three tokens gets 400; a
three-token line with a non-GET method gets 501; and a GET whose normalized
URI starts with `/` but whose size segment does not parse as an integer gets
400 (in a reachable state such a URI cannot be a cache key, so the cache-hit
check cannot preempt the 400). -/
theorem C8_malformed_local_errors (s : ProxyState) (hs : Reachable s)
    (u : String → Option (List Nat)) (r line : String) (restL : List String)
    (h1 : pySplitlines r = line :: restL) :
    handle_client s "" u = ⟨s, none, false, false⟩ ∧
    ((pySplitWs line).length < 3 →
      handle_client s r u
        = ⟨s, some (Sent.status 400 "Bad Request"), false, false⟩) ∧
    (∀ m uri0 v, pySplitWs line = [m, uri0, v] → m ≠ "GET" →
      handle_client s r u
        = ⟨s, some (Sent.status 501 "Not Implemented"), false, false⟩) ∧
    (∀ uri0 v, pySplitWs line = ["GET", uri0, v] →
      pyStartsWith (normalize_uri uri0) "/" = true →
      pythonInt (pyDrop (normalize_uri uri0) 1) = none →
      handle_client s r u
        = ⟨s, some (Sent.status 400 "Bad Request"), false, false⟩) := by
  refine ⟨rfl, ?_, ?_, ?_⟩
  · intro hlt
    rcases hw : pySplitWs line with _ | ⟨a, _ | ⟨b, _ | ⟨c, ps⟩⟩⟩
    · simp only [handle_client, h1, hw]
    · simp only [handle_client, h1, hw]
    · simp only [handle_client, h1, hw]
    · rw [hw] at hlt
      simp at hlt
      omega
  · intro m uri0 v hw hm
    rw [handle_client_eq_request s r u h1 hw, handle_request, if_pos hm]
  · intro uri0 v hw hstart hnone
    have hmiss : dictLookup s.cache (normalize_uri uri0) = none := by
      rcases he : dictLookup s.cache (normalize_uri uri0) with _ | fn
      · rfl
      · obtain ⟨_, _, hent⟩ := inv_reachable hs
        obtain ⟨⟨_, m2, hm2, _⟩, _, _⟩ :=
          hent (normalize_uri uri0, fn) (dictLookup_mem he)
        rw [hnone] at hm2
        cases hm2
    rw [handle_client_eq_request s r u h1 hw,
      handle_request_miss s uri0 u hstart hmiss, validate_and_forward, hnone]

theorem C8_malformed_local_errors_witness :
    handle_client ⟨[], []⟩ "" (fun _ => none) = ⟨⟨[], []⟩, none, false, false⟩ ∧
    handle_client ⟨[], []⟩ "GET\r\n" (fun _ => none)
      = ⟨⟨[], []⟩, some (Sent.status 400 "Bad Request"), false, false⟩ ∧
    handle_client ⟨[], []⟩ "POST /100 HTTP/1.1\r\n" (fun _ => none)
      = ⟨⟨[], []⟩, some (Sent.status 501 "Not Implemented"), false, false⟩ ∧
    handle_client ⟨[], []⟩ "GET /abc HTTP/1.1\r\n" (fun _ => none)
      = ⟨⟨[], []⟩, some (Sent.status 400 "Bad Request"), false, false⟩ :=
  ⟨(C8_malformed_local_errors ⟨[], []⟩ (Reachable.init []) (fun _ => none)
      "GET\r\n" "GET" [] rfl).1,
   (C8_malformed_local_errors ⟨[], []⟩ (Reachable.init []) (fun _ => none)
      "GET\r\n" "GET" [] rfl).2.1 (by decide),
   (C8_malformed_local_errors ⟨[], []⟩ (Reachable.init []) (fun _ => none)
      "POST /100 HTTP/1.1\r\n" "POST /100 HTTP/1.1" [] rfl).2.2.1
      "POST" "/100" "HTTP/1.1" rfl (by decide),
   (C8_malformed_local_errors ⟨[], []⟩ (Reachable.init []) (fun _ => none)
      "GET /abc HTTP/1.1\r\n" "GET /abc HTTP/1.1" [] rfl).2.2.2
      "/abc" "HTTP/1.1" rfl (by decide) (by decide)⟩

/-- C9: a request whose first line splits into more than three tokens makes
the three-way unpacking raise an uncaught exception in the proxy's
`handle_client` — the connection is closed with no response of any status
sent and the state untouched — and likewise in the web server stub's
handler. -/
theorem C9_unpack_crash (s : ProxyState) (u : String → Option (List Nat))
    (r line : String) (restL : List String) (parts : List String)
    (h1 : pySplitlines r = line :: restL) (h2 : pySplitWs line = parts)
    (h3 : 3 < parts.length) :
    handle_client s r u = ⟨s, none, false, true⟩ ∧
    web_handle_client r = (none, true) := by
  rcases parts with _ | ⟨a, _ | ⟨b, _ | ⟨c, _ | ⟨d, ps⟩⟩⟩⟩
  · simp at h3
  · simp at h3
  · simp at h3
  · simp at h3
  · constructor
    · simp only [handle_client, h1, h2]
    · simp only [web_handle_client, h1, h2]

theorem C9_unpack_crash_witness :
    handle_client ⟨[], []⟩ "GET /1 HTTP/1.1 x\r\n" (fun _ => none)
      = ⟨⟨[], []⟩, none, false, true⟩ ∧
    web_handle_client "GET /1 HTTP/1.1 x\r\n" = (none, true) :=
  C9_unpack_crash ⟨[], []⟩ (fun _ => none) "GET /1 HTTP/1.1 x\r\n"
    "GET /1 HTTP/1.1 x" [] ["GET", "/1", "HTTP/1.1", "x"] rfl rfl (by decide)

/-- C10: in every reachable state the value stored for a cached URI is
`cache_key uri` (the URI with `/` replaced by `_`), `cache_key` preserves
string length, so the length consulted by the cache-hit check equals the
URI's character count, and a GET for that URI takes the 304 branch exactly
when that character count is odd — independently of the cached response's
byte length. -/
theorem C10_filename_length_304 (s : ProxyState) (h : Reachable s)
    (uri fn : String) (hl : dictLookup s.cache uri = some fn)
    (u : String → Option (List Nat)) (w : String) :
    fn = cache_key uri ∧ fn.length = uri.length ∧
    (cache_key w).length = w.length ∧
    ((handle_request s "GET" uri u).sent = some (Sent.status 304 "Not Modified")
      ↔ uri.length % 2 = 1) := by
  obtain ⟨_, _, hent⟩ := inv_reachable h
  obtain ⟨hvk, hfn0, _⟩ := hent (uri, fn) (dictLookup_mem hl)
  have hfn : fn = cache_key uri := hfn0
  have hstart : pyStartsWith uri "/" = true := hvk.1
  have hnorm : normalize_uri uri = uri := normalize_uri_slash hstart
  have hstart' : pyStartsWith (normalize_uri uri) "/" = true := by
    rw [hnorm]; exact hstart
  have hhit : dictLookup s.cache (normalize_uri uri) = some fn := by
    rw [hnorm]; exact hl
  have hlen : fn.length = uri.length := by
    rw [hfn]; exact cache_key_length uri
  refine ⟨hfn, hlen, cache_key_length w, ?_, ?_⟩
  · intro h304
    by_contra hneven
    have heven : ¬ fn.length % 2 = 1 := by rw [hlen]; exact hneven
    rw [handle_request_hit_even s uri u hstart' hhit heven] at h304
    exact validate_sent_not_304 s (normalize_uri uri) u h304
  · intro hodd
    have hodd' : fn.length % 2 = 1 := by rw [hlen]; exact hodd
    rw [handle_request_hit_odd s uri u hstart' hhit hodd']

theorem C10_filename_length_304_witness :
    ("_200" : String) = cache_key "/200" ∧
    ("_200" : String).length = ("/200" : String).length ∧
    (cache_key "/1000").length = ("/1000" : String).length ∧
    ((handle_request ⟨[("/200", "_200")], [("_200", [65, 66])]⟩ "GET" "/200"
        (fun _ => none)).sent = some (Sent.status 304 "Not Modified")
      ↔ ("/200" : String).length % 2 = 1) :=
  C10_filename_length_304 _ reachable_one_entry "/200" "_200" rfl
    (fun _ => none) "/1000"

end ProxySrc
